import Mathlib

/-!
# Verification of the braided-react singleton lifecycle manager and hooks

Shallow embedding of `src/manager.ts` (`createSystemManager`) and
`src/hooks.tsx` (`createSystemHooks`) from the braided-react repository.

The manager is single-threaded JavaScript whose only interleaving points are
`await`s and promise callbacks.  We model one manager instance as a `World`
containing the three closure fields of `createSystemManager`
(`systemPromise`, `systemInstance`, `startupErrors`), a table of promise
states, and instrumentation counters (number of invocations of the external
engine's `startSystem` / `haltSystem`).  Every synchronous block of the
source between two suspension points becomes one atomic step; an event trace
is an arbitrary interleaving of caller invocations and promise settlements.

The external engine (`braided`'s `startSystem`/`haltSystem`) is out of scope
per the spec; its settlement results are chosen by the environment (the
`settle` event carries an arbitrary `EngineOutcome`).
-/

namespace BraidedReact

/-- A started system, as cached by the manager.  `ref` models JavaScript
reference identity of the object returned by the engine; `resources` maps a
resource identifier to its started instance (failed resources are absent). -/
structure StartedSystem where
  ref : Nat
  resources : List (String × Nat)
deriving DecidableEq, Repr

/-- The engine's error map: resource id → error message, in insertion
(= iteration) order, as a JS `Map` iterates. -/
abbrev ErrMap := List (String × String)

/-- The result shape `{ system, errors }` of the engine's `startSystem`. -/
structure EngineResult where
  system : StartedSystem
  errors : ErrMap
deriving DecidableEq, Repr

/-- State of one promise in the promise table. -/
inductive PromState
  | pending
  | fulfilled (r : EngineResult)
  | rejected (e : Nat)
deriving DecidableEq, Repr

/-- How the external engine's in-flight `startSystem` call settles:
fulfilled with `{system, errors}`, or rejected (structural failure `e`). -/
inductive EngineOutcome
  | ok (r : EngineResult)
  | err (e : Nat)
deriving DecidableEq, Repr

/-- One manager instance plus its environment.

* `systemPromise`, `systemInstance`, `startupErrors` are the three closure
  variables of `createSystemManager` (`systemPromise` stores the id of the
  promise `startSystem(config).then(...)`).
* `proms` is the promise table (id = index).
* `startCalls` / `haltCalls` count invocations of the external engine.
* `getCalls` records, per `getSystem()` call, the id of the promise that
  call awaits (its returned promise settles with that promise's result).
* `pendingHalt` counts `destroySystem` calls currently awaiting
  `haltSystem`. -/
structure World where
  systemPromise : Option Nat
  systemInstance : Option StartedSystem
  startupErrors : Option ErrMap
  proms : List PromState
  startCalls : Nat
  haltCalls : Nat
  getCalls : List Nat
  pendingHalt : Nat
deriving DecidableEq, Repr

/-- The freshly constructed manager: all three fields null. -/
def World.init : World :=
  { systemPromise := none, systemInstance := none, startupErrors := none,
    proms := [], startCalls := 0, haltCalls := 0, getCalls := [], pendingHalt := 0 }

/-- `getCurrentSystem()` — synchronous read of `systemInstance`. -/
def getCurrentSystem (w : World) : Option StartedSystem := w.systemInstance

/-- `getStartupErrors()` — synchronous read of `startupErrors`. -/
def getStartupErrors (w : World) : Option ErrMap := w.startupErrors

/-- `isStarted()` — `systemInstance !== null`. -/
def isStarted (w : World) : Bool := w.systemInstance.isSome

/-- The synchronous prefix of `getSystem()`: if `systemPromise` is null,
invoke the external `startSystem` (one engine call, fresh pending promise)
and memoize it; in all cases the caller awaits the memoized promise. -/
def stepGet (w : World) : World :=
  match w.systemPromise with
  | some p => { w with getCalls := w.getCalls ++ [p] }
  | none =>
      let p := w.proms.length
      { w with systemPromise := some p,
               proms := w.proms ++ [PromState.pending],
               startCalls := w.startCalls + 1,
               getCalls := w.getCalls ++ [p] }

/-- Settlement of the `startSystem` call underlying promise `p` together
with the `.then` callback of `getSystem`: on fulfillment the callback
unconditionally stores `result.system` / `result.errors` into the closure
fields (it does not consult `systemPromise`, so it fires even if a later
`destroySystem` already cleared the fields) and `p` fulfills with the
result; on rejection `p` rejects and the callback is skipped.  (Between the
engine promise settling and the callback running no field changes, so the
two microtasks form one observable atomic step.)  A non-pending promise
cannot settle: no-op. -/
def stepSettle (p : Nat) (o : EngineOutcome) (w : World) : World :=
  if w.proms[p]? = some PromState.pending then
    match o with
    | EngineOutcome.ok r =>
        { w with proms := w.proms.set p (PromState.fulfilled r),
                 systemInstance := some r.system,
                 startupErrors := some r.errors }
    | EngineOutcome.err e =>
        { w with proms := w.proms.set p (PromState.rejected e) }
  else w

/-- The synchronous prefix of `destroySystem()`: the guard
`systemPromise && systemInstance`.  When it holds, `haltSystem` is invoked
(one engine call) and the caller suspends awaiting it; otherwise the call
completes immediately without touching anything. -/
def stepDestroy (w : World) : World :=
  match w.systemPromise, w.systemInstance with
  | some _, some _ => { w with haltCalls := w.haltCalls + 1, pendingHalt := w.pendingHalt + 1 }
  | _, _ => w

/-- Resumption of one awaiting `destroySystem` call after `haltSystem`
settles: the three consecutive synchronous assignments clear
`systemPromise`, `systemInstance` and `startupErrors` (halt errors are only
logged).  No-op when no destroy is awaiting. -/
def stepHaltSettle (w : World) : World :=
  if w.pendingHalt > 0 then
    { w with pendingHalt := w.pendingHalt - 1,
             systemPromise := none, systemInstance := none, startupErrors := none }
  else w

/-- Events of the interleaving semantics: each is one atomic synchronous
block of the source. -/
inductive Ev
  | getSys
  | settle (p : Nat) (o : EngineOutcome)
  | destroy
  | haltSettle
deriving DecidableEq, Repr

/-- Apply one event. -/
def applyEv (e : Ev) (w : World) : World :=
  match e with
  | Ev.getSys => stepGet w
  | Ev.settle p o => stepSettle p o w
  | Ev.destroy => stepDestroy w
  | Ev.haltSettle => stepHaltSettle w

/-- Run an event trace from a world. -/
def runFrom (w : World) (evs : List Ev) : World :=
  evs.foldl (fun w e => applyEv e w) w

/-- Run an event trace from the freshly constructed manager. -/
def run (evs : List Ev) : World := runFrom World.init evs

/-- What a `getSystem()` caller awaiting promise `p` resolves to
(`result.system`), once that promise is fulfilled. -/
def callResult (w : World) (p : Nat) : Option StartedSystem :=
  match w.proms[p]? with
  | some (PromState.fulfilled r) => some r.system
  | _ => none

/-! ## The external engine, for the graceful-degradation scenarios

The engine `braided` is an external black box; per its documented contract
`startSystem` starts each resource, collecting per-resource failures in
`errors` and omitting failed resources from `system` (it never rejects for a
per-resource failure).  We model a config as a list of resources that either
succeed with a value or fail with a message. -/

/-- A resource definition, abstracted to its startup behavior. -/
inductive ResourceSpec
  | ok (value : Nat)
  | fail (msg : String)
deriving DecidableEq, Repr

/-- A system config: resource id → resource definition, keys unique. -/
abbrev Config := List (String × ResourceSpec)

/-- The engine's `startSystem` on a config: successful resources populate
the system, failing ones are collected into the error map (external contract,
spec §6/§8); `ref` is the fresh reference identity of the result object. -/
def engineStart (ref : Nat) (config : Config) : EngineResult :=
  { system :=
      { ref := ref,
        resources := config.filterMap fun pr =>
          match pr.2 with
          | ResourceSpec.ok v => some (pr.1, v)
          | ResourceSpec.fail _ => none },
    errors := config.filterMap fun pr =>
      match pr.2 with
      | ResourceSpec.ok _ => none
      | ResourceSpec.fail m => some (pr.1, m) }

/-! ## The hooks (`src/hooks.tsx`)

`useSystem` / `useResource` are pure in the manager state except that the
not-yet-started branch invokes `manager.getSystem()` (triggering `stepGet`)
and throws the resulting promise; we return the outcome together with the
world after the call.  `contextSystem` is the injection override
(`SystemProvider` value), `none` when no provider wraps the caller. -/

/-- Outcome of evaluating a suspending hook: return a value, throw an
`Error` (caught by an ErrorBoundary), or throw a promise (Suspense). -/
inductive HookOutcome (α : Type)
  | value (a : α)
  | fault (msg : String)
  | suspend
deriving DecidableEq, Repr

/-- JS `Array.prototype.join(sep)`: elements concatenated with `sep`
between consecutive elements. -/
def joinSep (sep : String) : List String → String
  | [] => ""
  | [a] => a
  | a :: b :: rest => a ++ sep ++ joinSep sep (b :: rest)

/-- The aggregate error string built by `useSystem`:
`Array.from(errors.entries()).map(([id, err]) => id + ": " + err.message).join(", ")`. -/
def errorList (errs : ErrMap) : String :=
  joinSep ", " (errs.map fun pr => pr.1 ++ ": " ++ pr.2)

/-- `useSystem()`: context override first; else if started, fault when the
error map is non-empty, otherwise return the cached system; else call
`getSystem()` and throw the promise (suspend). -/
def useSystem (contextSystem : Option StartedSystem) (w : World) :
    HookOutcome StartedSystem × World :=
  match contextSystem with
  | some s => (HookOutcome.value s, w)
  | none =>
      match getCurrentSystem w with
      | some current =>
          match getStartupErrors w with
          | some errs =>
              if errs.length > 0 then
                (HookOutcome.fault ("System startup failed: " ++ errorList errs), w)
              else (HookOutcome.value current, w)
          | none => (HookOutcome.value current, w)
      | none => (HookOutcome.suspend, stepGet w)

/-- `useResource(resourceId)`: `useSystem()` then `system[resourceId]`
(`none` models JS `undefined` for an absent key). -/
def useResource (resourceId : String) (contextSystem : Option StartedSystem)
    (w : World) : HookOutcome (Option Nat) × World :=
  match useSystem contextSystem w with
  | (HookOutcome.value s, w2) =>
      (HookOutcome.value ((s.resources.find? fun pr => pr.1 = resourceId).map Prod.snd), w2)
  | (HookOutcome.fault m, w2) => (HookOutcome.fault m, w2)
  | (HookOutcome.suspend, w2) => (HookOutcome.suspend, w2)

/-! ## The status hook (`useSystemStatus`) -/

/-- The local `useState` classification of `useSystemStatus`. -/
inductive LStatus
  | idle
  | loading
  | ready
  | error
deriving DecidableEq, Repr

/-- The record returned by `useSystemStatus`. -/
structure SystemStatus where
  isIdle : Bool
  isLoading : Bool
  isReady : Bool
  isError : Bool
  system : Option StartedSystem
  errors : Option ErrMap
deriving DecidableEq, Repr

/-- The `useState` initializer: `manager.isStarted() ? "ready" : "idle"`. -/
def initialStatus (w : World) : LStatus :=
  if isStarted w then LStatus.ready else LStatus.idle

/-- The body of `useSystemStatus`: with a context override, Ready with that
system; otherwise the four mutually exclusive booleans from the local
classification plus synchronous manager reads.  Every branch returns a
value — the source contains no `throw`. -/
def useSystemStatus (contextSystem : Option StartedSystem) (ls : LStatus)
    (w : World) : HookOutcome SystemStatus :=
  match contextSystem with
  | some s =>
      HookOutcome.value
        { isIdle := false, isLoading := false, isReady := true, isError := false,
          system := some s, errors := none }
  | none =>
      HookOutcome.value
        { isIdle := ls = LStatus.idle, isLoading := ls = LStatus.loading,
          isReady := ls = LStatus.ready, isError := ls = LStatus.error,
          system := getCurrentSystem w, errors := getStartupErrors w }

/-- Combined state for the status hook's temporal behavior: the manager
world, the local classification, and the promise the last trigger
invocation's `.then`/`.catch` chain awaits (none once consumed). -/
structure StatusWorld where
  w : World
  ls : LStatus
  awaiting : Option Nat
deriving DecidableEq, Repr

/-- Initial status world over a manager world: the seeded classification,
no trigger pending. -/
def StatusWorld.mk0 (w : World) : StatusWorld :=
  { w := w, ls := initialStatus w, awaiting := none }

/-- The promise id a `getSystem()` call made now would await. -/
def getPromiseId (w : World) : Nat :=
  match w.systemPromise with
  | some p => p
  | none => w.proms.length

/-- The classification the trigger's settlement callback computes once the
awaited promise has settled: `.then` reads `getStartupErrors()` at callback
time (errors non-empty → "error", else "ready"); `.catch` → "error".
`none` while the promise is still pending. -/
def statusAfterSettle (w : World) (p : Nat) : Option LStatus :=
  match w.proms[p]? with
  | some (PromState.fulfilled _) =>
      some (match w.startupErrors with
            | some errs => if errs.length > 0 then LStatus.error else LStatus.ready
            | none => LStatus.ready)
  | some (PromState.rejected _) => some LStatus.error
  | _ => none

/-- Events of the status-hook machine: invoking the `startSystem` trigger,
a manager-level event, or the trigger's settlement callback running. -/
inductive SEv
  | trigger
  | mgr (e : Ev)
  | callback
deriving DecidableEq, Repr

/-- One step of the status-hook machine.  The trigger: if
`manager.isStarted()`, set "ready" and return; else set "loading", call
`manager.getSystem()` and chain the settlement callback.  The callback runs
only after its awaited promise settled. -/
def sstep (e : SEv) (s : StatusWorld) : StatusWorld :=
  match e with
  | SEv.trigger =>
      if isStarted s.w then { s with ls := LStatus.ready }
      else { w := stepGet s.w, ls := LStatus.loading, awaiting := some (getPromiseId s.w) }
  | SEv.mgr e => { s with w := applyEv e s.w }
  | SEv.callback =>
      match s.awaiting with
      | none => s
      | some p =>
          match statusAfterSettle s.w p with
          | some ls2 => { s with ls := ls2, awaiting := none }
          | none => s

/-- Run a status-hook event trace. -/
def srun (s : StatusWorld) (evs : List SEv) : StatusWorld :=
  evs.foldl (fun s e => sstep e s) s

/-! ## Basic lemmas about the manager steps -/

theorem stepGet_of_some {w : World} {p : Nat} (h : w.systemPromise = some p) :
    stepGet w = { w with getCalls := w.getCalls ++ [p] } := by
  unfold stepGet
  rw [h]

theorem runFrom_cons (e : Ev) (evs : List Ev) (w : World) :
    runFrom w (e :: evs) = runFrom (applyEv e w) evs := rfl

theorem runFrom_getSys_const {p : Nat} (n : Nat) (w : World)
    (h : w.systemPromise = some p) :
    runFrom w (List.replicate n Ev.getSys) =
      { w with getCalls := w.getCalls ++ List.replicate n p } := by
  induction n generalizing w with
  | zero => simp [runFrom]
  | succ k ih =>
      rw [List.replicate_succ, runFrom_cons]
      have h1 : applyEv Ev.getSys w = { w with getCalls := w.getCalls ++ [p] } :=
        stepGet_of_some h
      rw [h1, ih { w with getCalls := w.getCalls ++ [p] } h]
      simp [List.replicate_succ]

theorem run_replicate_getSys (k : Nat) :
    run (List.replicate (k + 1) Ev.getSys) =
      { systemPromise := some 0, systemInstance := none, startupErrors := none,
        proms := [PromState.pending], startCalls := 1, haltCalls := 0,
        getCalls := List.replicate (k + 1) 0, pendingHalt := 0 } := by
  rw [List.replicate_succ]
  show runFrom (applyEv Ev.getSys World.init) (List.replicate k Ev.getSys) = _
  have h1 : applyEv Ev.getSys World.init =
      { systemPromise := some 0, systemInstance := none, startupErrors := none,
        proms := [PromState.pending], startCalls := 1, haltCalls := 0,
        getCalls := [0], pendingHalt := 0 } := rfl
  rw [h1, runFrom_getSys_const k _ rfl]
  simp [List.replicate_succ]

/-- C1: for every engine result and every number `K ≥ 1` of callers, calling
`getSystem()` K times before the first startup resolves invokes the external
engine's `startSystem` exactly once, and all K callers' promises resolve to
the same (reference-identical) started system. -/
theorem getSystem_startup_shared (K : Nat) (r : EngineResult) (w : World)
    (hK : 1 ≤ K)
    (hw : w = stepSettle 0 (EngineOutcome.ok r) (run (List.replicate K Ev.getSys))) :
    w.startCalls = 1 ∧ w.getCalls.length = K ∧
      ∀ p ∈ w.getCalls, callResult w p = some r.system := by
  subst hw
  obtain ⟨k, rfl⟩ : ∃ k, K = k + 1 := ⟨K - 1, by omega⟩
  rw [run_replicate_getSys]
  refine ⟨by simp [stepSettle], by simp [stepSettle], ?_⟩
  intro p hp
  have hp0 : p = 0 := by simpa [stepSettle] using hp
  subst hp0
  simp [stepSettle, callResult]

theorem getSystem_startup_shared_witness :
    1 ≤ 3 ∧ (stepSettle 0 (EngineOutcome.ok ⟨⟨0, [("a", 1)]⟩, []⟩)
      (run (List.replicate 3 Ev.getSys))).startCalls = 1 :=
  ⟨by decide, (getSystem_startup_shared 3 ⟨⟨0, [("a", 1)]⟩, []⟩ _ (by decide) rfl).1⟩

/-! ## The reset-atomicity invariant (C4) -/

/-- Safety invariant: whenever the memoized `systemPromise` is fulfilled,
the cached `systemInstance` is present.  Equivalently, no state has the
cache cleared while the pending startup promise resolves. -/
def FulfilledHasInstance (w : World) : Prop :=
  ∀ p r, w.systemPromise = some p →
    w.proms[p]? = some (PromState.fulfilled r) → w.systemInstance.isSome = true

theorem fulfilledHasInstance_init : FulfilledHasInstance World.init := by
  intro p r hp _
  simp [World.init] at hp

theorem fulfilledHasInstance_applyEv (e : Ev) (w : World)
    (h : FulfilledHasInstance w) : FulfilledHasInstance (applyEv e w) := by
  cases e with
  | getSys =>
      show FulfilledHasInstance (stepGet w)
      cases hsp : w.systemPromise with
      | some q =>
          rw [stepGet_of_some hsp]
          intro p r hp hf
          exact h p r hp hf
      | none =>
          have hW : stepGet w =
              { w with systemPromise := some w.proms.length,
                       proms := w.proms ++ [PromState.pending],
                       startCalls := w.startCalls + 1,
                       getCalls := w.getCalls ++ [w.proms.length] } := by
            unfold stepGet; rw [hsp]
          rw [hW]
          intro p r hp hf
          simp only at hp hf
          have hp' : p = w.proms.length := by
            cases hp; rfl
          subst hp'
          rw [List.getElem?_concat_length] at hf
          simp at hf
  | settle q o =>
      show FulfilledHasInstance (stepSettle q o w)
      unfold stepSettle
      by_cases hq : w.proms[q]? = some PromState.pending
      · rw [if_pos hq]
        cases o with
        | ok r2 =>
            intro p r hp hf
            simp
        | err e2 =>
            intro p r hp hf
            simp only at hp hf
            by_cases hpq : q = p
            · subst hpq
              rw [List.getElem?_set_self (List.getElem?_eq_some.mp hq).1] at hf
              simp at hf
            · rw [List.getElem?_set_ne hpq] at hf
              exact h p r hp hf
      · rw [if_neg hq]; exact h
  | destroy =>
      show FulfilledHasInstance (stepDestroy w)
      cases hsp : w.systemPromise with
      | none =>
          have hW : stepDestroy w = w := by unfold stepDestroy; rw [hsp]
          rw [hW]; exact h
      | some q =>
          cases hsi : w.systemInstance with
          | none =>
              have hW : stepDestroy w = w := by unfold stepDestroy; rw [hsp, hsi]
              rw [hW]; exact h
          | some s =>
              have hW : stepDestroy w =
                  { w with haltCalls := w.haltCalls + 1,
                           pendingHalt := w.pendingHalt + 1 } := by
                unfold stepDestroy; rw [hsp, hsi]
              rw [hW]
              intro p r hp hf
              exact h p r hp hf
  | haltSettle =>
      show FulfilledHasInstance (stepHaltSettle w)
      unfold stepHaltSettle
      by_cases hph : w.pendingHalt > 0
      · rw [if_pos hph]
        intro p r hp hf
        simp at hp
      · rw [if_neg hph]; exact h

theorem fulfilledHasInstance_runFrom (evs : List Ev) :
    ∀ (w : World), FulfilledHasInstance w → FulfilledHasInstance (runFrom w evs) := by
  induction evs with
  | nil => intro w h; exact h
  | cons e evs ih =>
      intro w h
      rw [runFrom_cons]
      exact ih _ (fulfilledHasInstance_applyEv e w h)

theorem fulfilledHasInstance_run (evs : List Ev) : FulfilledHasInstance (run evs) :=
  fulfilledHasInstance_runFrom evs _ fulfilledHasInstance_init

/-- C4: the reset in `destroySystem` is atomic relative to every other
manager operation: in every reachable manager state (any interleaving of
`getSystem` calls, startup settlements, `destroySystem` calls and halt
completions), if the `pendingStartup` field is set and its promise is
fulfilled, then the cached system is present — so no caller can ever
observe `cachedSystem` cleared while `pendingStartup` still resolves to the
old instance. -/
theorem destroy_reset_atomic (evs : List Ev) (p : Nat) (r : EngineResult)
    (hp : (run evs).systemPromise = some p)
    (hf : (run evs).proms[p]? = some (PromState.fulfilled r)) :
    (run evs).systemInstance.isSome = true :=
  fulfilledHasInstance_run evs p r hp hf

theorem destroy_reset_atomic_witness :
    (run [Ev.getSys, Ev.settle 0 (EngineOutcome.ok ⟨⟨0, []⟩, []⟩)]).systemPromise = some 0 ∧
    (run [Ev.getSys, Ev.settle 0 (EngineOutcome.ok ⟨⟨0, []⟩, []⟩)]).systemInstance.isSome = true :=
  ⟨by decide, destroy_reset_atomic _ 0 ⟨⟨0, []⟩, []⟩ (by decide) (by decide)⟩

/-! ## Graceful degradation (C2) -/

theorem engineStart_fail_absent (ref : Nat) (config : Config) (id m : String)
    (hkeys : (config.map Prod.fst).Nodup)
    (hmem : (id, ResourceSpec.fail m) ∈ config) :
    ((engineStart ref config).system.resources.find? fun pr => pr.1 = id) = none := by
  apply List.find?_eq_none.mpr
  intro x hx
  obtain ⟨a, ha, hfa⟩ := List.mem_filterMap.mp hx
  cases ha2 : a.2 with
  | fail m2 =>
      rw [ha2] at hfa
      simp at hfa
  | ok v =>
      rw [ha2] at hfa
      have hx2 : x = (a.1, v) := by simpa using hfa.symm
      subst hx2
      simp only [decide_eq_true_eq]
      intro hid
      have ha' : a = (id, ResourceSpec.fail m) :=
        List.inj_on_of_nodup_map hkeys ha hmem hid
      rw [ha'] at ha2
      simp at ha2

theorem engineStart_fail_error (ref : Nat) (config : Config) (id m : String)
    (hmem : (id, ResourceSpec.fail m) ∈ config) :
    (id, m) ∈ (engineStart ref config).errors :=
  List.mem_filterMap.mpr ⟨(id, ResourceSpec.fail m), hmem, rfl⟩

theorem engineStart_ok_present (ref : Nat) (config : Config) (id : String) (v : Nat)
    (hmem : (id, ResourceSpec.ok v) ∈ config) :
    (id, v) ∈ (engineStart ref config).system.resources :=
  List.mem_filterMap.mpr ⟨(id, ResourceSpec.ok v), hmem, rfl⟩

/-- C2: for every config in which some resource fails to start while the
engine call itself fulfills (the engine's contract for per-resource
failures), `getSystem()` resolves — it does not reject — to the partial
system with every failing resource absent and every successful resource
present; afterwards `getStartupErrors()` returns exactly the engine's error
map (one entry per failed resource) and `getCurrentSystem()` returns the
partial system. -/
theorem getSystem_graceful_degradation (config : Config) (ref : Nat) (w : World)
    (hkeys : (config.map Prod.fst).Nodup)
    (hfail : ∃ pr ∈ config, ∃ m, pr.2 = ResourceSpec.fail m)
    (hw : w = stepSettle 0 (EngineOutcome.ok (engineStart ref config)) (stepGet World.init)) :
    callResult w 0 = some (engineStart ref config).system ∧
    getCurrentSystem w = some (engineStart ref config).system ∧
    getStartupErrors w = some (engineStart ref config).errors ∧
    (engineStart ref config).errors ≠ [] ∧
    (∀ id m, (id, ResourceSpec.fail m) ∈ config →
      ((engineStart ref config).system.resources.find? fun pr => pr.1 = id) = none ∧
      (id, m) ∈ (engineStart ref config).errors) ∧
    ∀ id v, (id, ResourceSpec.ok v) ∈ config →
      (id, v) ∈ (engineStart ref config).system.resources := by
  subst hw
  refine ⟨rfl, rfl, rfl, ?_, ?_, ?_⟩
  · obtain ⟨pr, hmem, m, hm⟩ := hfail
    have hin : (pr.1, m) ∈ (engineStart ref config).errors := by
      apply List.mem_filterMap.mpr
      exact ⟨pr, hmem, by rw [hm]⟩
    exact List.ne_nil_of_mem hin
  · intro id m hmem
    exact ⟨engineStart_fail_absent ref config id m hkeys hmem,
           engineStart_fail_error ref config id m hmem⟩
  · intro id v hmem
    exact engineStart_ok_present ref config id v hmem

theorem getSystem_graceful_degradation_witness :
    ((([("a", ResourceSpec.ok 1), ("b", ResourceSpec.fail "boom")] : Config).map
        Prod.fst).Nodup) ∧
    getStartupErrors
        (stepSettle 0
          (EngineOutcome.ok (engineStart 0 [("a", ResourceSpec.ok 1), ("b", ResourceSpec.fail "boom")]))
          (stepGet World.init)) =
      some (engineStart 0 [("a", ResourceSpec.ok 1), ("b", ResourceSpec.fail "boom")]).errors :=
  ⟨by decide,
   (getSystem_graceful_degradation
      [("a", ResourceSpec.ok 1), ("b", ResourceSpec.fail "boom")] 0 _
      (by decide) ⟨("b", ResourceSpec.fail "boom"), by simp, "boom", rfl⟩ rfl).2.2.1⟩

/-! ## Reset and restart (C3) -/

/-- C3 as stated is violated by the code under an (exotic but real)
interleaving: after a completed startup, two overlapping `destroySystem`
calls both pass the guard; the first halt continuation clears the fields, a
new `getSystem` begins a second startup, the second (stale) halt
continuation clears `systemPromise` while that startup is in flight, and
when the startup's `.then` callback finally runs it re-populates
`systemInstance` with `systemPromise` left `null`.  In that reachable state
a startup has completed, yet `destroySystem()` resolves as a no-op and
`isStarted()` stays `true`. -/
theorem destroy_reset_counterexample :
    getCurrentSystem
        (run [Ev.getSys, Ev.settle 0 (EngineOutcome.ok ⟨⟨0, []⟩, []⟩), Ev.destroy,
          Ev.destroy, Ev.haltSettle, Ev.getSys, Ev.haltSettle,
          Ev.settle 1 (EngineOutcome.ok ⟨⟨1, []⟩, []⟩)]) = some ⟨1, []⟩ ∧
    stepDestroy
        (run [Ev.getSys, Ev.settle 0 (EngineOutcome.ok ⟨⟨0, []⟩, []⟩), Ev.destroy,
          Ev.destroy, Ev.haltSettle, Ev.getSys, Ev.haltSettle,
          Ev.settle 1 (EngineOutcome.ok ⟨⟨1, []⟩, []⟩)]) =
      run [Ev.getSys, Ev.settle 0 (EngineOutcome.ok ⟨⟨0, []⟩, []⟩), Ev.destroy,
          Ev.destroy, Ev.haltSettle, Ev.getSys, Ev.haltSettle,
          Ev.settle 1 (EngineOutcome.ok ⟨⟨1, []⟩, []⟩)] ∧
    isStarted
        (stepDestroy
          (run [Ev.getSys, Ev.settle 0 (EngineOutcome.ok ⟨⟨0, []⟩, []⟩), Ev.destroy,
            Ev.destroy, Ev.haltSettle, Ev.getSys, Ev.haltSettle,
            Ev.settle 1 (EngineOutcome.ok ⟨⟨1, []⟩, []⟩)])) = true := by
  decide

/-- C3 (amended): for every manager on which a startup has completed and
whose `pendingStartup` field still holds the memoized promise (always the
case except after a stale halt continuation of overlapping `destroySystem`
calls), after `destroySystem()` resolves `isStarted()` is `false`,
`getCurrentSystem()` and `getStartupErrors()` are absent, the engine's halt
was invoked once, and the next `getSystem()` triggers a fresh external
startup whose resulting system is not reference-equal to the previous
one. -/
theorem destroy_then_fresh_start (w w2 w3 : World) (p : Nat) (s : StartedSystem)
    (r2 : EngineResult)
    (hp : w.systemPromise = some p) (hs : w.systemInstance = some s)
    (hfresh : r2.system.ref ≠ s.ref)
    (hw2 : w2 = stepHaltSettle (stepDestroy w))
    (hw3 : w3 = stepSettle w.proms.length (EngineOutcome.ok r2) (stepGet w2)) :
    isStarted w2 = false ∧ getCurrentSystem w2 = none ∧ getStartupErrors w2 = none ∧
    w2.haltCalls = w.haltCalls + 1 ∧
    w3.startCalls = w.startCalls + 1 ∧
    getCurrentSystem w3 = some r2.system ∧
    r2.system ≠ s := by
  subst hw2 hw3
  refine ⟨?_, ?_, ?_, ?_, ?_, ?_,
    fun heq => hfresh (congrArg StartedSystem.ref heq)⟩ <;>
    simp [stepDestroy, stepHaltSettle, stepGet, stepSettle, isStarted,
      getCurrentSystem, getStartupErrors, hp, hs]

theorem destroy_then_fresh_start_witness :
    (run [Ev.getSys, Ev.settle 0 (EngineOutcome.ok ⟨⟨0, []⟩, []⟩)]).systemPromise = some 0 ∧
    (run [Ev.getSys, Ev.settle 0 (EngineOutcome.ok ⟨⟨0, []⟩, []⟩)]).systemInstance =
      some ⟨0, []⟩ ∧
    (⟨⟨1, []⟩, []⟩ : EngineResult).system.ref ≠ (⟨0, []⟩ : StartedSystem).ref ∧
    getCurrentSystem
        (stepSettle (run [Ev.getSys, Ev.settle 0 (EngineOutcome.ok ⟨⟨0, []⟩, []⟩)]).proms.length
          (EngineOutcome.ok ⟨⟨1, []⟩, []⟩)
          (stepGet (stepHaltSettle (stepDestroy
            (run [Ev.getSys, Ev.settle 0 (EngineOutcome.ok ⟨⟨0, []⟩, []⟩)]))))) =
      some (⟨⟨1, []⟩, []⟩ : EngineResult).system :=
  ⟨by decide, by decide, by decide,
   (destroy_then_fresh_start _ _ _ 0 ⟨0, []⟩ ⟨⟨1, []⟩, []⟩
      (by decide) (by decide) (by decide) rfl rfl).2.2.2.2.2.1⟩

/-! ## destroySystem during an in-flight startup (C10) -/

/-- C10: calling `destroySystem()` while a startup is in flight but not yet
completed (`pendingStartup` set, `cachedSystem` absent) is a complete
no-op — the external halt is not invoked and no field changes — and the
in-flight startup still runs to completion and caches its outcome for
future callers. -/
theorem destroy_noop_while_inflight (w : World) (p : Nat) (r : EngineResult)
    (hp : w.systemPromise = some p) (hi : w.systemInstance = none) :
    stepDestroy w = w ∧
    (w.proms[p]? = some PromState.pending →
      getCurrentSystem (stepSettle p (EngineOutcome.ok r) (stepDestroy w)) = some r.system ∧
      getStartupErrors (stepSettle p (EngineOutcome.ok r) (stepDestroy w)) = some r.errors ∧
      callResult (stepSettle p (EngineOutcome.ok r) (stepDestroy w)) p = some r.system) := by
  have hd : stepDestroy w = w := by unfold stepDestroy; rw [hp, hi]
  refine ⟨hd, fun hpend => ?_⟩
  rw [hd]
  have hq : p < w.proms.length := (List.getElem?_eq_some.mp hpend).1
  unfold stepSettle
  rw [if_pos hpend]
  refine ⟨rfl, rfl, ?_⟩
  simp [callResult, List.getElem?_set_self hq]

theorem destroy_noop_while_inflight_witness :
    (run [Ev.getSys]).systemPromise = some 0 ∧
    (run [Ev.getSys]).systemInstance = none ∧
    stepDestroy (run [Ev.getSys]) = run [Ev.getSys] :=
  ⟨by decide, by decide,
   (destroy_noop_while_inflight _ 0 ⟨⟨0, []⟩, []⟩ (by decide) (by decide)).1⟩

/-! ## Memoized structural rejection (C9) -/

/-- The state after a structural rejection with nothing else pending: the
memoized promise is rejected, no instance is cached, and no halt
continuation or startup is in flight. -/
def RejectedFrozen (p e : Nat) (w : World) : Prop :=
  w.systemPromise = some p ∧ w.proms[p]? = some (PromState.rejected e) ∧
  w.systemInstance = none ∧ w.pendingHalt = 0 ∧
  ∀ q : Nat, w.proms[q]? ≠ some PromState.pending

theorem rejectedFrozen_applyEv (p e : Nat) (ev : Ev) (w : World)
    (h : RejectedFrozen p e w) :
    RejectedFrozen p e (applyEv ev w) ∧ (applyEv ev w).startCalls = w.startCalls := by
  obtain ⟨hp, hr, hi, hph, hnp⟩ := h
  cases ev with
  | getSys =>
      have hW : applyEv Ev.getSys w = { w with getCalls := w.getCalls ++ [p] } :=
        stepGet_of_some hp
      rw [hW]
      exact ⟨⟨hp, hr, hi, hph, hnp⟩, rfl⟩
  | settle q o =>
      have hW : applyEv (Ev.settle q o) w = w := by
        show stepSettle q o w = w
        unfold stepSettle
        rw [if_neg (hnp q)]
      rw [hW]
      exact ⟨⟨hp, hr, hi, hph, hnp⟩, rfl⟩
  | destroy =>
      have hW : applyEv Ev.destroy w = w := by
        show stepDestroy w = w
        unfold stepDestroy
        rw [hp, hi]
      rw [hW]
      exact ⟨⟨hp, hr, hi, hph, hnp⟩, rfl⟩
  | haltSettle =>
      have hW : applyEv Ev.haltSettle w = w := by
        show stepHaltSettle w = w
        unfold stepHaltSettle
        rw [if_neg (by omega)]
      rw [hW]
      exact ⟨⟨hp, hr, hi, hph, hnp⟩, rfl⟩

theorem rejectedFrozen_runFrom (p e : Nat) (evs : List Ev) :
    ∀ (w : World), RejectedFrozen p e w →
      RejectedFrozen p e (runFrom w evs) ∧ (runFrom w evs).startCalls = w.startCalls := by
  induction evs with
  | nil => intro w h; exact ⟨h, rfl⟩
  | cons ev evs ih =>
      intro w h
      obtain ⟨h1, h2⟩ := rejectedFrozen_applyEv p e ev w h
      obtain ⟨h3, h4⟩ := ih _ h1
      rw [runFrom_cons]
      exact ⟨h3, by rw [h4, h2]⟩

/-- C9's final consequence is violated by the code: a structural rejection
is not permanent.  With two overlapping `destroySystem` calls before the
failure, the stale halt continuation clears the memoized rejected promise,
after which `getSystem()` invokes the engine afresh (three `startSystem`
invocations in this trace, the last after the rejection). -/
theorem structural_rejection_not_permanent :
    (run [Ev.getSys, Ev.settle 0 (EngineOutcome.ok ⟨⟨0, []⟩, []⟩), Ev.destroy, Ev.destroy,
        Ev.haltSettle, Ev.getSys, Ev.settle 1 (EngineOutcome.err 0)]).proms[1]? =
      some (PromState.rejected 0) ∧
    (run [Ev.getSys, Ev.settle 0 (EngineOutcome.ok ⟨⟨0, []⟩, []⟩), Ev.destroy, Ev.destroy,
        Ev.haltSettle, Ev.getSys, Ev.settle 1 (EngineOutcome.err 0), Ev.haltSettle,
        Ev.getSys]).startCalls = 3 := by
  decide

/-- C9 (amended): a structural rejection of `startSystem` is memoized —
every subsequent `getSystem()` awaits the same rejected promise without
re-invoking the engine, and `destroySystem()` in that state is a no-op that
does not clear it; provided additionally that no halt continuation from an
earlier `destroySystem` and no stale startup is still pending, no sequence
of further operations can ever invoke the engine again. -/
theorem structural_rejection_memoized (w : World) (p e : Nat)
    (hp : w.systemPromise = some p)
    (hr : w.proms[p]? = some (PromState.rejected e))
    (hi : w.systemInstance = none) :
    stepGet w = { w with getCalls := w.getCalls ++ [p] } ∧
    (stepGet w).startCalls = w.startCalls ∧
    stepDestroy w = w ∧
    (w.pendingHalt = 0 → (∀ q : Nat, w.proms[q]? ≠ some PromState.pending) →
      ∀ evs, (runFrom w evs).startCalls = w.startCalls ∧
             (runFrom w evs).systemPromise = some p ∧
             (runFrom w evs).proms[p]? = some (PromState.rejected e)) := by
  refine ⟨stepGet_of_some hp, ?_, ?_, ?_⟩
  · rw [stepGet_of_some hp]
  · unfold stepDestroy
    rw [hp, hi]
  · intro hph hnp evs
    obtain ⟨⟨h1, h2, _, _, _⟩, h6⟩ := rejectedFrozen_runFrom p e evs w ⟨hp, hr, hi, hph, hnp⟩
    exact ⟨h6, h1, h2⟩

theorem structural_rejection_memoized_witness :
    (run [Ev.getSys, Ev.settle 0 (EngineOutcome.err 7)]).systemPromise = some 0 ∧
    (run [Ev.getSys, Ev.settle 0 (EngineOutcome.err 7)]).proms[0]? =
      some (PromState.rejected 7) ∧
    stepDestroy (run [Ev.getSys, Ev.settle 0 (EngineOutcome.err 7)]) =
      run [Ev.getSys, Ev.settle 0 (EngineOutcome.err 7)] :=
  ⟨by decide, by decide,
   (structural_rejection_memoized _ 0 7 (by decide) (by decide) (by decide)).2.2.1⟩

/-! ## The suspending hooks (C5, C6, C7) -/

theorem joinSep_infix (sep : String) (l : List String) (x : String) (hx : x ∈ l) :
    ∃ pre post, joinSep sep l = pre ++ x ++ post := by
  induction l with
  | nil => cases hx
  | cons a rest ih =>
      rcases List.mem_cons.mp hx with rfl | hmem
      · cases rest with
        | nil => exact ⟨"", "", by simp [joinSep]⟩
        | cons b bs =>
            refine ⟨"", sep ++ joinSep sep (b :: bs), ?_⟩
            show joinSep sep (x :: b :: bs) = "" ++ x ++ (sep ++ joinSep sep (b :: bs))
            simp [joinSep, String.append_assoc]
      · cases rest with
        | nil => cases hmem
        | cons b bs =>
            obtain ⟨pre, post, hpp⟩ := ih hmem
            refine ⟨a ++ sep ++ pre, post, ?_⟩
            show joinSep sep (a :: b :: bs) = a ++ sep ++ pre ++ x ++ post
            rw [show joinSep sep (a :: b :: bs) = a ++ sep ++ joinSep sep (b :: bs) from rfl,
              hpp]
            simp [String.append_assoc]

/-- C5: whenever the manager has completed startup with one or more
per-resource errors and no injection override is active, `useResource`
faults for every requested resource identifier — including identifiers of
resources that started successfully — and the fault's message contains
every failing resource's identifier and error text (the substring
`id: message`). -/
theorem useResource_broad_brush_fault (w : World) (s : StartedSystem) (errs : ErrMap)
    (resourceId : String)
    (hs : w.systemInstance = some s) (he : w.startupErrors = some errs)
    (hne : errs ≠ []) :
    useResource resourceId none w =
      (HookOutcome.fault ("System startup failed: " ++ errorList errs), w) ∧
    ∀ pr ∈ errs, ∃ pre post,
      "System startup failed: " ++ errorList errs = pre ++ (pr.1 ++ ": " ++ pr.2) ++ post := by
  have hlen : 0 < errs.length := List.length_pos.mpr hne
  have hu : useSystem none w =
      (HookOutcome.fault ("System startup failed: " ++ errorList errs), w) := by
    simp [useSystem, getCurrentSystem, getStartupErrors, hs, he, hlen]
  refine ⟨?_, ?_⟩
  · unfold useResource
    rw [hu]
  · intro pr hpr
    have hmem : (pr.1 ++ ": " ++ pr.2) ∈ errs.map (fun q => q.1 ++ ": " ++ q.2) :=
      List.mem_map_of_mem _ hpr
    obtain ⟨pre, post, hpp⟩ := joinSep_infix ", " _ _ hmem
    refine ⟨"System startup failed: " ++ pre, post, ?_⟩
    rw [errorList, hpp]
    simp [String.append_assoc]

theorem useResource_broad_brush_fault_witness :
    (run [Ev.getSys,
        Ev.settle 0 (EngineOutcome.ok ⟨⟨0, [("a", 1)]⟩, [("b", "boom")]⟩)]).systemInstance =
      some ⟨0, [("a", 1)]⟩ ∧
    ("a", 1) ∈ (⟨0, [("a", 1)]⟩ : StartedSystem).resources ∧
    useResource "a" none
        (run [Ev.getSys,
          Ev.settle 0 (EngineOutcome.ok ⟨⟨0, [("a", 1)]⟩, [("b", "boom")]⟩)]) =
      (HookOutcome.fault ("System startup failed: " ++ errorList [("b", "boom")]),
        run [Ev.getSys,
          Ev.settle 0 (EngineOutcome.ok ⟨⟨0, [("a", 1)]⟩, [("b", "boom")]⟩)]) ∧
    "System startup failed: " ++ errorList [("b", "boom")] = "System startup failed: b: boom" :=
  ⟨by decide, by decide,
   (useResource_broad_brush_fault _ ⟨0, [("a", 1)]⟩ [("b", "boom")] "a"
      (by decide) (by decide) (by decide)).1,
   by decide⟩

/-- C6: an active injection override (a `SystemProvider` value) wins
unconditionally: `useSystem` returns the override synchronously in every
manager state — even one holding a different started system or recorded
startup errors — raising no fault and triggering no startup (the manager
world is returned unchanged). -/
theorem useSystem_override_wins (s : StartedSystem) (w : World) :
    useSystem (some s) w = (HookOutcome.value s, w) := rfl

/-- C7: with no override active, once startup has completed with a
non-empty error set, `useSystem` faults synchronously — no suspension, no
state change — and the fault's message is exactly
`"System startup failed: "` followed by the `"id: message"` pair of each
failed resource, joined by `", "`, in the iteration order of the error
set. -/
theorem useSystem_error_fault_message (w : World) (s : StartedSystem) (errs : ErrMap)
    (hs : w.systemInstance = some s) (he : w.startupErrors = some errs)
    (hne : errs ≠ []) :
    useSystem none w =
      (HookOutcome.fault ("System startup failed: " ++
        joinSep ", " (errs.map fun pr => pr.1 ++ ": " ++ pr.2)), w) := by
  have hlen : 0 < errs.length := List.length_pos.mpr hne
  simp [useSystem, getCurrentSystem, getStartupErrors, errorList, hs, he, hlen]

theorem useSystem_error_fault_message_witness :
    useSystem none
        (run [Ev.getSys, Ev.settle 0 (EngineOutcome.ok ⟨⟨0, []⟩, [("a", "x"), ("b", "y")]⟩)]) =
      (HookOutcome.fault ("System startup failed: " ++
        joinSep ", " (([("a", "x"), ("b", "y")] : ErrMap).map fun pr => pr.1 ++ ": " ++ pr.2)),
        run [Ev.getSys, Ev.settle 0 (EngineOutcome.ok ⟨⟨0, []⟩, [("a", "x"), ("b", "y")]⟩)]) ∧
    "System startup failed: " ++
        joinSep ", " (([("a", "x"), ("b", "y")] : ErrMap).map fun pr => pr.1 ++ ": " ++ pr.2) =
      "System startup failed: a: x, b: y" :=
  ⟨useSystem_error_fault_message _ ⟨0, []⟩ [("a", "x"), ("b", "y")]
      (by decide) (by decide) (by decide),
   by decide⟩

/-! ## The status hook (C8) -/

/-- C8's "the classification never reports Loading again after settlement
for the same manager" is violated by the code: if the startup settled by
rejection (structural failure), the manager is still unstarted, so invoking
the trigger again sets the classification back to Loading.  The trace:
trigger (Idle→Loading), rejection settles, callback (→Failed), trigger
again (→Loading). -/
theorem useSystemStatus_loading_after_settlement :
    (srun (StatusWorld.mk0 World.init)
        [SEv.trigger, SEv.mgr (Ev.settle 0 (EngineOutcome.err 0))]).w.proms[0]? =
      some (PromState.rejected 0) ∧
    (srun (StatusWorld.mk0 World.init)
        [SEv.trigger, SEv.mgr (Ev.settle 0 (EngineOutcome.err 0)), SEv.callback]).ls =
      LStatus.error ∧
    (srun (StatusWorld.mk0 World.init)
        [SEv.trigger, SEv.mgr (Ev.settle 0 (EngineOutcome.err 0)), SEv.callback,
          SEv.trigger]).ls = LStatus.loading := by
  decide

/-- C8 (amended): the status accessor never throws and never suspends in
any manager state.  Its trigger, invoked while the manager is unstarted,
sets the classification to Loading and joins (or starts) `getSystem()`;
when the awaited promise settles, the settlement callback sets Ready
(fulfilled with an empty error set) or Failed (non-empty error set, or
rejection); and once the manager is started, no step of the hook machine
newly sets the classification to Loading — in particular the trigger then
reclassifies to Ready.  (Only after a structural rejection, which leaves
the manager unstarted, can a repeated trigger report Loading again.) -/
theorem useSystemStatus_lifecycle (w : World) (ls : LStatus) (aw : Option Nat) :
    (∀ ctx l, ∃ res, useSystemStatus ctx l w = HookOutcome.value res) ∧
    (isStarted w = false →
      (sstep SEv.trigger ⟨w, ls, aw⟩).ls = LStatus.loading ∧
      (sstep SEv.trigger ⟨w, ls, aw⟩).w = stepGet w) ∧
    (isStarted w = true → (sstep SEv.trigger ⟨w, ls, aw⟩).ls = LStatus.ready) ∧
    (∀ p r errs, aw = some p → w.proms[p]? = some (PromState.fulfilled r) →
      w.startupErrors = some errs →
      (sstep SEv.callback ⟨w, ls, aw⟩).ls =
        (if errs.length > 0 then LStatus.error else LStatus.ready)) ∧
    (∀ p e, aw = some p → w.proms[p]? = some (PromState.rejected e) →
      (sstep SEv.callback ⟨w, ls, aw⟩).ls = LStatus.error) ∧
    (isStarted w = true → ∀ ev, (sstep ev ⟨w, ls, aw⟩).ls = LStatus.loading →
      ls = LStatus.loading) := by
  refine ⟨?_, ?_, ?_, ?_, ?_, ?_⟩
  · intro ctx l
    cases ctx with
    | none => exact ⟨_, rfl⟩
    | some s => exact ⟨_, rfl⟩
  · intro h
    constructor <;> simp [sstep, h]
  · intro h
    simp [sstep, h]
  · intro p r errs haw hp he
    simp [sstep, haw, statusAfterSettle, hp, he]
  · intro p e haw hp
    simp [sstep, haw, statusAfterSettle, hp]
  · intro h ev hl
    cases ev with
    | trigger => simp [sstep, h] at hl
    | mgr e => exact hl
    | callback =>
        cases haw : aw with
        | none => simpa [sstep, haw] using hl
        | some p =>
            cases hq : w.proms[p]? with
            | none => simpa [sstep, haw, statusAfterSettle, hq] using hl
            | some ps =>
                cases ps with
                | pending => simpa [sstep, haw, statusAfterSettle, hq] using hl
                | rejected e => simp [sstep, haw, statusAfterSettle, hq] at hl
                | fulfilled r =>
                    cases herr : w.startupErrors with
                    | none => simp [sstep, haw, statusAfterSettle, hq, herr] at hl
                    | some errs =>
                        by_cases hlen : errs.length > 0
                        · simp [sstep, haw, statusAfterSettle, hq, herr, hlen] at hl
                        · simp [sstep, haw, statusAfterSettle, hq, herr, hlen] at hl

theorem useSystemStatus_lifecycle_witness :
    isStarted World.init = false ∧
    (sstep SEv.trigger ⟨World.init, LStatus.idle, none⟩).ls = LStatus.loading :=
  ⟨by decide, ((useSystemStatus_lifecycle World.init LStatus.idle none).2.1 (by decide)).1⟩

end BraidedReact
